import Mathlib

/-!
Verification of the zodic runtime validation library (schema combinators,
parse pipeline, path-tracked error aggregation).

The enum validator is embedded directly from `zodic/schemas/enums.py`.
The core engine (`zodic/core/base.py`, `zodic/core/errors.py`,
`zodic/schemas/primitives.py`, `zodic/schemas/collections.py`,
`zodic/schemas/special.py`) is not part of the source tree available here;
those parts are modelled from the specification, as marked on each
definition.
-/

namespace Zodic

/-- Symbolic model of a Python float: a finite rational value, or one of the
special values NaN, +inf, -inf. Claims about the number schema only concern
classification (NaN and infinity rejection), not IEEE arithmetic. -/
inductive PyFloat : Type where
  | finite (q : ℚ)
  | nan
  | inf
  | ninf
deriving DecidableEq, Repr

/-- Dynamic Python-like runtime values, the closed variant of raw-input kinds
from the specification (string, number, boolean, null, sequence, map), plus
the UNDEFINED sentinel used for absent object fields. Map keys are strings,
as produced by JSON-like deserialization. -/
inductive PyVal : Type where
  | undef
  | none
  | bool (b : Bool)
  | int (n : Int)
  | float (f : PyFloat)
  | str (s : String)
  | list (xs : List PyVal)
  | dict (entries : List (String × PyVal))
deriving Repr

/-- Numeric view of a Python value: Python treats bool as a numeric type
(True has value 1, False value 0) and compares int and float by value. -/
def PyVal.asNum : PyVal → Option PyFloat
  | .bool b => some (.finite (if b then 1 else 0))
  | .int n => some (.finite (n : ℚ))
  | .float f => some f
  | _ => Option.none

/-- Equality of Python float views: NaN compares unequal to everything,
including itself; the infinities and finite values compare by value. -/
def PyFloat.numEq : PyFloat → PyFloat → Bool
  | .finite a, .finite b => a == b
  | .inf, .inf => true
  | .ninf, .ninf => true
  | _, _ => false

/-- Kind tag of a Python value (the dynamic type). -/
def PyVal.kind : PyVal → String
  | .undef => "Undefined"
  | .none => "NoneType"
  | .bool _ => "bool"
  | .int _ => "int"
  | .float _ => "float"
  | .str _ => "str"
  | .list _ => "list"
  | .dict _ => "dict"

/-- Association-list lookup for model dictionaries (unique keys assumed,
mirroring Python dict semantics). -/
def dictFind : List (String × PyVal) → String → Option PyVal
  | [], _ => Option.none
  | (k, v) :: rest, key => if k = key then some v else dictFind rest key

mutual

/-- Python `==` on the modelled values: numbers (bool/int/float) compare by
numeric value across kinds, NaN is unequal to itself, strings and None
compare by value, lists compare elementwise, dicts compare by key lookup
(equal sizes and every key of the left present in the right with an equal
value; keys are unique in both, matching Python dicts). UNDEFINED is a
process-wide singleton, so it equals only itself. -/
def pyEq : PyVal → PyVal → Bool
  | .undef, .undef => true
  | .none, .none => true
  | .str a, .str b => a == b
  | .list a, .list b => pyEqList a b
  | .dict a, .dict b => a.length == b.length && pyEqDict a b
  | a, b =>
    match a.asNum, b.asNum with
    | some x, some y => x.numEq y
    | _, _ => false

/-- Elementwise Python equality of two sequences. -/
def pyEqList : List PyVal → List PyVal → Bool
  | [], [] => true
  | a :: as_, b :: bs => pyEq a b && pyEqList as_ bs
  | _, _ => false

/-- Every entry of the first dict has an equal value under the same key in
the second. -/
def pyEqDict : List (String × PyVal) → List (String × PyVal) → Bool
  | [], _ => true
  | (k, v) :: rest, b =>
    (match dictFind b k with
     | some w => pyEq v w
     | Option.none => false)
    && pyEqDict rest b

end

/-- Python repr of a modelled value, as used in error messages.
String reprs are wrapped in single quotes, True/False/None use Python
capitalization. -/
def pyRepr : PyVal → String
  | .undef => "Undefined"
  | .none => "None"
  | .bool b => if b then "True" else "False"
  | .int n => toString n
  | .float (.finite q) => toString q
  | .float .nan => "nan"
  | .float .inf => "inf"
  | .float .ninf => "-inf"
  | .str s =>
    String.singleton (Char.ofNat 39) ++ s ++ String.singleton (Char.ofNat 39)
  | .list _ => "[...]"
  | .dict _ => "{...}"

/-- One segment of an error path: an object field name or an array index. -/
inductive PathSeg : Type where
  | key (name : String)
  | idx (i : Nat)
deriving DecidableEq, Repr

/-- A path locating a value inside nested input, rooted at the empty list. -/
abbrev Path : Type := List PathSeg

/-- One located, coded validation failure: path, machine code, message, and
the raw offending value. -/
structure Issue : Type where
  path : Path
  code : String
  message : String
  received : PyVal

/-- Single Issue constructor used by validators (`custom_issue` in
`core/errors.py`). The source of `core/errors.py` is not in the tree; the
signature `custom_issue(message, path, received, code?)` is taken from the
specification. The code argument is explicit here; call sites that pass no
code in the Python source use the modelled default recorded separately. -/
def custom_issue (message : String) (path : Path) (received : PyVal)
    (code : String) : Issue :=
  { path := path, code := code, message := message, received := received }

/-- Modelled from the spec: the issue code carried by an enum rejection.
`EnumSchema._parse_value` calls `custom_issue` without an explicit code, and
the default of that optional argument lives in `core/errors.py`, absent from
the tree; the specification fixes the code of an enum rejection as
`invalid_enum_value`. -/
def enumFailCode : String := "invalid_enum_value"

/-- A post-processing step: a refine (predicate plus failure message) or a
transform (pure mapping). Modelled from the spec (`core/base.py` is absent);
user callbacks are modelled as total functions. -/
inductive Step : Type where
  | refineS (pred : PyVal → Bool) (msg : String)
  | transformS (f : PyVal → PyVal)

mutual

/-- Type-check payload of a schema node: the concrete validator dispatched
to in step 3 of the pipeline. Enum carries its fixed ordered value list
(from `zodic/schemas/enums.py`); the rest are modelled from the spec. -/
inductive Core : Type where
  | strC : Core
  | numC : Core
  | boolC : Core
  | noneC : Core
  | litC (v : PyVal) : Core
  | enumC (values : List PyVal) : Core
  | objC (fields : Fields) : Core
  | arrC (elem : Schema) : Core
  | uniC (alts : Alts) : Core

/-- Declared object fields, in declaration order (name and child schema). -/
inductive Fields : Type where
  | nil : Fields
  | cons (name : String) (child : Schema) (rest : Fields) : Fields

/-- Ordered union alternatives. -/
inductive Alts : Type where
  | nil : Alts
  | cons (head : Schema) (rest : Alts) : Alts

/-- A schema node, modelled from the spec (`core/base.py` is absent): the
concrete type check, the ordered post-processing steps, the optional and
nullable flags, and the configured default value (if any). -/
inductive Schema : Type where
  | node (core : Core) (steps : List Step) (opt : Bool) (nul : Bool)
      (dflt : Option PyVal) : Schema

end

/-- Build the field list from an ordinary Lean list. -/
def Fields.ofList : List (String × Schema) → Fields
  | [] => .nil
  | (k, s) :: rest => .cons k s (Fields.ofList rest)

/-- Build the alternative list from an ordinary Lean list. -/
def Alts.ofList : List Schema → Alts
  | [] => .nil
  | s :: rest => .cons s (Alts.ofList rest)

/-- True exactly on the UNDEFINED sentinel. -/
def PyVal.isUndef : PyVal → Bool
  | .undef => true
  | _ => false

/-- True exactly on None. -/
def PyVal.isNone : PyVal → Bool
  | .none => true
  | _ => false

/-- Invalid-type issue, with the message shape observed in the tests
(`Expected string, received int`). -/
def invalidType (path : Path) (expected : String) (received : PyVal) : Issue :=
  { path := path, code := "invalid_type",
    message := "Expected " ++ expected ++ ", received " ++ received.kind,
    received := received }

/-- Enum rejection message from `EnumSchema._parse_value`:
`f"Expected one of [{values_str}], received {repr(value)}"` with
`values_str = ", ".join(repr(v) for v in self.values)`. -/
def enumMessage (values : List PyVal) (received : PyVal) : String :=
  "Expected one of [" ++ String.intercalate ", " (values.map pyRepr)
    ++ "], received " ++ pyRepr received

/-- Run the recorded post-processing steps in order (step 4 of the spec
pipeline, modelled from the spec): a refine whose predicate fails stops
immediately with a `custom` issue carrying the step message; a transform
maps the current value, feeding subsequent steps. -/
def runSteps : List Step → PyVal → Path → Except (List Issue) PyVal
  | [], v, _ => .ok v
  | .refineS p m :: rest, v, path =>
    if p v then runSteps rest v path
    else .error [custom_issue m path v "custom"]
  | .transformS f :: rest, v, path => runSteps rest (f v) path

mutual

/-- The single evaluation routine behind `parse` and `safe_parse`, modelled
from the spec (`core/base.py` is absent): resolve UNDEFINED through
default/optional (a configured default is substituted verbatim and goes
straight to the post-processing steps, bypassing the nullability resolution
and the type check), resolve None through nullable/optional, then dispatch
to the concrete type check and thread the result through the steps. -/
def evaluate : Schema → PyVal → Path → Except (List Issue) PyVal
  | .node _core steps opt _nul dflt, .undef, path =>
    match dflt with
    | some d => runSteps steps d path
    | Option.none =>
      if opt then .ok PyVal.none
      else .error [custom_issue "Required" path PyVal.undef "required"]
  | .node core steps opt nul _dflt, raw, path =>
    if raw.isNone && (nul || opt) then .ok PyVal.none
    else
      match parseCore core raw path with
      | .ok v => runSteps steps v path
      | .error e => .error e
termination_by s _ _ => (sizeOf s, 0)

/-- Concrete validator dispatch (step 3 of the pipeline). The enum branch is
embedded from `EnumSchema._parse_value` in `zodic/schemas/enums.py`
(`if value not in self.values: raise ZodError([custom_issue(msg, ctx,
value)]) ... return value`, with Python `in` membership, i.e. `==`
equality); the remaining branches are modelled from the spec. -/
def parseCore : Core → PyVal → Path → Except (List Issue) PyVal
  | .strC, raw, path =>
    match raw with
    | .str s => .ok (.str s)
    | _ => .error [invalidType path "string" raw]
  | .numC, raw, path =>
    match raw with
    | .bool _ => .error [invalidType path "number" raw]
    | .int n => .ok (.int n)
    | .float (.finite q) => .ok (.float (.finite q))
    | .float .nan =>
      .error [custom_issue "Number cannot be NaN" path raw "invalid_type"]
    | .float .inf =>
      .error [custom_issue "Number cannot be infinite" path raw "invalid_type"]
    | .float .ninf =>
      .error [custom_issue "Number cannot be infinite" path raw "invalid_type"]
    | _ => .error [invalidType path "number" raw]
  | .boolC, raw, path =>
    match raw with
    | .bool b => .ok (.bool b)
    | _ => .error [invalidType path "boolean" raw]
  | .noneC, raw, path =>
    match raw with
    | .none => .ok PyVal.none
    | _ => .error [invalidType path "None" raw]
  | .litC v, raw, path =>
    if pyEq raw v then .ok raw
    else
      .error [custom_issue
        ("Expected literal value " ++ pyRepr v ++ ", received " ++ pyRepr raw)
        path raw "invalid_literal"]
  | .enumC values, raw, path =>
    if values.any (fun v => pyEq raw v) then .ok raw
    else .error [custom_issue (enumMessage values raw) path raw enumFailCode]
  | .objC fields, raw, path =>
    match raw with
    | .dict entries =>
      match evalFields fields entries path with
      | (out, []) => .ok (.dict out)
      | (_, issues) => .error issues
    | _ => .error [invalidType path "object" raw]
  | .arrC elem, raw, path =>
    match raw with
    | .list xs =>
      match evalElems elem xs path 0 with
      | (out, []) => .ok (.list out)
      | (_, issues) => .error issues
    | _ => .error [invalidType path "array" raw]
  | .uniC alts, raw, path =>
    match evalAlts alts raw path with
    | some v => .ok v
    | Option.none =>
      .error [custom_issue "Value did not match any union option" path raw
        "invalid_union"]
termination_by c _ _ => (sizeOf c, 0)

/-- Evaluate every declared object field (modelled from the spec,
`collections.py` absent; unknown-key policy fixed to the default `strip`,
the only policy the claims exercise): each field's child schema is run at
`path + [field]` on `raw.get(field, UNDEFINED)`, successes are collected in
declaration order, and the issues of all failing fields are merged. -/
def evalFields : Fields → List (String × PyVal) → Path →
    List (String × PyVal) × List Issue
  | .nil, _, _ => ([], [])
  | .cons k child rest, entries, path =>
    let r := evaluate child
      ((dictFind entries k).getD PyVal.undef) (path ++ [PathSeg.key k])
    let tail := evalFields rest entries path
    match r with
    | .ok v => ((k, v) :: tail.1, tail.2)
    | .error e => (tail.1, e ++ tail.2)
termination_by fs _ _ => (sizeOf fs, 0)

/-- Evaluate every array element (modelled from the spec): element `i` runs
at `path + [i]`; all elements are evaluated and failing elements' issues are
merged in order. -/
def evalElems : Schema → List PyVal → Path → Nat → List PyVal × List Issue
  | _, [], _, _ => ([], [])
  | elem, x :: xs, path, i =>
    let r := evaluate elem x (path ++ [PathSeg.idx i])
    let tail := evalElems elem xs path (i + 1)
    match r with
    | .ok v => (v :: tail.1, tail.2)
    | .error e => (tail.1, e ++ tail.2)
termination_by e xs _ _ => (sizeOf e, xs.length + 1)

/-- Try union alternatives in declared order against the same raw input and
path; the first success wins (modelled from the spec, `special.py` absent). -/
def evalAlts : Alts → PyVal → Path → Option PyVal
  | .nil, _, _ => Option.none
  | .cons s rest, raw, path =>
    match evaluate s raw path with
    | .ok v => some v
    | .error _ => evalAlts rest raw path
termination_by as_ _ _ => (sizeOf as_, 0)

end

/-- Core type tag of a node. -/
def Schema.core : Schema → Core
  | .node c _ _ _ _ => c

/-- Recorded post-processing steps of a node. -/
def Schema.steps : Schema → List Step
  | .node _ st _ _ _ => st

/-- Chain building (modelled from the spec): each chain method returns a new
node carrying the parent's full step list with one entry appended; in the
Python source this is `_clone` plus append. -/
def Schema.withStep : Schema → Step → Schema
  | .node c st opt nul dflt, s => .node c (st ++ [s]) opt nul dflt

/-- Attach a transform step. -/
def Schema.transform (s : Schema) (f : PyVal → PyVal) : Schema :=
  s.withStep (.transformS f)

/-- Attach a refine step. -/
def Schema.refine (s : Schema) (p : PyVal → Bool) (m : String) : Schema :=
  s.withStep (.refineS p m)

/-- Set the optional flag on a clone. -/
def Schema.optional : Schema → Schema
  | .node c st _ nul dflt => .node c st true nul dflt

/-- Set the nullable flag on a clone. -/
def Schema.nullable : Schema → Schema
  | .node c st opt _ dflt => .node c st opt true dflt

/-- Configure a default value on a clone. -/
def Schema.withDefault : Schema → PyVal → Schema
  | .node c st opt nul _, d => .node c st opt nul (some d)

/-- The string schema constructor (`string()`; `primitives.py` is absent,
modelled from the spec). Length/regex constraints are not needed by the
claims and are omitted. -/
def stringS : Schema := .node .strC [] false false Option.none

/-- The number schema constructor (`number()`), modelled from the spec. -/
def numberS : Schema := .node .numC [] false false Option.none

/-- The boolean schema constructor (`boolean()`), modelled from the spec. -/
def booleanS : Schema := .node .boolC [] false false Option.none

/-- The enum schema constructor (`enum(values)` from
`zodic/schemas/enums.py`). -/
def enumS (values : List PyVal) : Schema :=
  .node (.enumC values) [] false false Option.none

/-- The literal schema constructor (`literal(v)`), modelled from the spec. -/
def literalS (v : PyVal) : Schema :=
  .node (.litC v) [] false false Option.none

/-- The object schema constructor (`object(fields)`), modelled from the
spec. -/
def objectS (fields : List (String × Schema)) : Schema :=
  .node (.objC (Fields.ofList fields)) [] false false Option.none

/-- The array schema constructor (`array(elem)`), modelled from the spec. -/
def arrayS (elem : Schema) : Schema :=
  .node (.arrC elem) [] false false Option.none

/-- The union schema over an ordered list of alternatives (`union(...)`),
modelled from the spec. -/
def unionS (alts : List Schema) : Schema :=
  .node (.uniC (Alts.ofList alts)) [] false false Option.none

/-- The binary union operator (`a | b` in the Python source), modelled from
the spec: an ordered two-alternative union. -/
def Schema.orSchema (a b : Schema) : Schema := unionS [a, b]

/-- Parse result of the non-throwing entry point: success with data, or
failure with the ordered issue aggregate (ZodError). -/
inductive ParseResult : Type where
  | success (data : PyVal)
  | failure (error : List Issue)

/-- The throwing entry point `parse(raw)`, modelled from the spec: runs the
pipeline at the root (empty) path; an error value stands for the raised
ZodError aggregate. -/
def Schema.parse (s : Schema) (raw : PyVal) : Except (List Issue) PyVal :=
  evaluate s raw []

/-- The non-throwing entry point `safe_parse(raw)`, modelled from the
spec. -/
def Schema.safe_parse (s : Schema) (raw : PyVal) : ParseResult :=
  match evaluate s raw [] with
  | .ok v => .success v
  | .error e => .failure e

/-- Issues contributed by one child evaluation result: none on success, the
child's issue list on failure. -/
def errList : Except (List Issue) PyVal → List Issue
  | .ok _ => []
  | .error e => e

/-- True when an evaluation result is a success. -/
def isOk : Except (List Issue) PyVal → Bool
  | .ok _ => true
  | .error _ => false

/-- Aggregate of the issues contributed by every declared object field, in
declaration order, stated the way the specification words it: each field's
child schema is evaluated at `path + [field]` on `raw.get(field, UNDEFINED)`
and the failing fields' issues are concatenated. -/
def fieldIssues : List (String × Schema) → List (String × PyVal) → Path →
    List Issue
  | [], _, _ => []
  | (k, s) :: rest, entries, path =>
    errList (evaluate s ((dictFind entries k).getD PyVal.undef)
      (path ++ [PathSeg.key k]))
      ++ fieldIssues rest entries path

/-- Aggregate of the issues contributed by every array element from index
`i` on, stated the way the specification words it: element `i` is evaluated
at `path + [i]` and failing elements' issues are concatenated. -/
def elemIssues : Schema → List PyVal → Path → Nat → List Issue
  | _, [], _, _ => []
  | elem, x :: xs, path, i =>
    errList (evaluate elem x (path ++ [PathSeg.idx i]))
      ++ elemIssues elem xs path (i + 1)

/-- Equality by both value and dynamic type, as the specification words the
enum acceptance test: the kinds agree and the values compare equal. -/
def strictEq (a b : PyVal) : Bool :=
  a.kind == b.kind && pyEq a b

/-- Splitting a step pipeline: running a concatenation first runs the left
part and, only on success, feeds its value to the right part. -/
theorem runSteps_append (a b : List Step) (v : PyVal) (path : Path) :
    runSteps (a ++ b) v path =
      match runSteps a v path with
      | .ok w => runSteps b w path
      | .error e => .error e := by
  induction a generalizing v with
  | nil => simp [runSteps]
  | cons s rest ih =>
    cases s with
    | refineS p m =>
      cases hp : p v <;> simp [runSteps, hp, ih]
    | transformS f =>
      simp [runSteps, ih]

/-- Evaluation of a node with the optional and nullable flags clear and no
default, on raw input that is not the UNDEFINED sentinel, is exactly the
concrete type check followed by the step pipeline. -/
theorem evaluate_flags_off (core : Core) (steps : List Step) (raw : PyVal)
    (path : Path) (h : raw.isUndef = false) :
    evaluate (.node core steps false false Option.none) raw path =
      match parseCore core raw path with
      | .ok v => runSteps steps v path
      | .error e => .error e := by
  cases raw <;> simp_all [evaluate, PyVal.isUndef, PyVal.isNone]

/-- C3: evaluating the absent marker UNDEFINED on any schema node resolves
as follows: a configured default is substituted verbatim and goes straight
to the post-processing steps (bypassing the nullability resolution and the
type check); otherwise an optional schema yields None; otherwise the parse
fails with one issue with code `required` at the current path. Concretely,
`string().default("x").safe_parse(UNDEFINED)` succeeds with `"x"`, and a
default value is not re-checked against the base type
(`number().default("x")` yields the string `"x"` on UNDEFINED). -/
theorem C3_undefined_resolution :
    (∀ (core : Core) (steps : List Step) (opt nul : Bool) (dflt : Option PyVal)
       (path : Path) (d : PyVal), dflt = some d →
       evaluate (.node core steps opt nul dflt) PyVal.undef path =
         runSteps steps d path)
    ∧ (∀ (core : Core) (steps : List Step) (nul : Bool) (path : Path),
       evaluate (.node core steps true nul Option.none) PyVal.undef path =
         .ok PyVal.none)
    ∧ (∀ (core : Core) (steps : List Step) (nul : Bool) (path : Path),
       evaluate (.node core steps false nul Option.none) PyVal.undef path =
         .error [custom_issue "Required" path PyVal.undef "required"])
    ∧ (stringS.withDefault (.str "x")).safe_parse PyVal.undef =
        .success (.str "x")
    ∧ (numberS.withDefault (.str "x")).parse PyVal.undef = .ok (.str "x") := by
  refine ⟨?_, ?_, ?_, ?_, ?_⟩
  · intro core steps opt nul dflt path d hd
    subst hd
    simp [evaluate]
  · intro core steps nul path
    simp [evaluate]
  · intro core steps nul path
    simp [evaluate]
  · simp [Schema.safe_parse, Schema.withDefault, stringS, evaluate, runSteps]
  · simp [Schema.parse, Schema.withDefault, numberS, evaluate, runSteps]

/-- C6: within one value's step pipeline the first refine step whose
predicate fails stops the pipeline immediately: whatever steps follow it do
not run, and the failure carries only that step's message (code `custom`).
In particular, `.refine(p1,"m1").refine(p2,"m2")` on a string input failing
both predicates reports only `"m1"`. -/
theorem C6_refine_fail_fast :
    (∀ (pre post : List Step) (p : PyVal → Bool) (m : String) (v w : PyVal)
       (path : Path),
       runSteps pre v path = .ok w → p w = false →
       runSteps (pre ++ Step.refineS p m :: post) v path =
         .error [custom_issue m path w "custom"])
    ∧ (∀ (p1 p2 : PyVal → Bool) (m1 m2 : String) (x : String) (path : Path),
       p1 (.str x) = false → p2 (.str x) = false →
       evaluate ((stringS.refine p1 m1).refine p2 m2) (.str x) path =
         .error [custom_issue m1 path (.str x) "custom"]) := by
  constructor
  · intro pre post p m v w path hpre hp
    rw [runSteps_append, hpre]
    simp [runSteps, hp]
  · intro p1 p2 m1 m2 x path h1 h2
    simp [Schema.refine, Schema.withStep, stringS, evaluate, parseCore,
      PyVal.isNone, runSteps, h1]

/-- C7: post-processing steps run in attachment order: two chained
transforms compose (`string().transform(f).transform(g).parse(x)` yields
`g(f(x))` on any string input), a refine attached after a transform
evaluates the transformed value, and a transform attached after a refine
receives the refined value. -/
theorem C7_step_order :
    (∀ (f g : PyVal → PyVal) (x : String) (path : Path),
       evaluate ((stringS.transform f).transform g) (.str x) path =
         .ok (g (f (.str x))))
    ∧ (∀ (f : PyVal → PyVal) (p : PyVal → Bool) (m : String) (v : PyVal)
       (path : Path),
       runSteps [Step.transformS f, Step.refineS p m] v path =
         if p (f v) then .ok (f v)
         else .error [custom_issue m path (f v) "custom"])
    ∧ (∀ (p : PyVal → Bool) (m : String) (f : PyVal → PyVal) (v : PyVal)
       (path : Path),
       runSteps [Step.refineS p m, Step.transformS f] v path =
         if p v then .ok (f v) else .error [custom_issue m path v "custom"]) := by
  refine ⟨?_, ?_, ?_⟩
  · intro f g x path
    simp [Schema.transform, Schema.withStep, stringS, evaluate, parseCore,
      PyVal.isNone, runSteps]
  · intro f p m v path
    cases hp : p (f v) <;> simp [runSteps, hp]
  · intro p m f v path
    cases hp : p v <;> simp [runSteps, hp]

/-- C8: the number schema accepts exactly the numeric, non-boolean, finite
values: integers and finite floats pass unchanged, while booleans, NaN,
+infinity, -infinity, and every non-numeric kind are each rejected with a
failed parse. -/
theorem C8_number_type_check :
    (∀ (path : Path) (n : Int),
       evaluate numberS (.int n) path = .ok (.int n))
    ∧ (∀ (path : Path) (q : ℚ),
       evaluate numberS (.float (.finite q)) path = .ok (.float (.finite q)))
    ∧ (∀ (path : Path) (b : Bool),
       evaluate numberS (.bool b) path =
         .error [invalidType path "number" (.bool b)])
    ∧ (∀ path : Path,
       evaluate numberS (.float .nan) path =
         .error [custom_issue "Number cannot be NaN" path (.float .nan)
           "invalid_type"])
    ∧ (∀ path : Path,
       evaluate numberS (.float .inf) path =
         .error [custom_issue "Number cannot be infinite" path (.float .inf)
           "invalid_type"])
    ∧ (∀ path : Path,
       evaluate numberS (.float .ninf) path =
         .error [custom_issue "Number cannot be infinite" path (.float .ninf)
           "invalid_type"])
    ∧ (∀ (path : Path) (s : String),
       evaluate numberS (.str s) path =
         .error [invalidType path "number" (.str s)])
    ∧ (∀ path : Path,
       evaluate numberS PyVal.none path =
         .error [invalidType path "number" PyVal.none])
    ∧ (∀ (path : Path) (xs : List PyVal),
       evaluate numberS (.list xs) path =
         .error [invalidType path "number" (.list xs)])
    ∧ (∀ (path : Path) (entries : List (String × PyVal)),
       evaluate numberS (.dict entries) path =
         .error [invalidType path "number" (.dict entries)]) := by
  refine ⟨?_, ?_, ?_, ?_, ?_, ?_, ?_, ?_, ?_, ?_⟩ <;>
    intros <;>
    simp [numberS, evaluate, parseCore, PyVal.isNone, runSteps]

/-- C4 fails as stated: `EnumSchema._parse_value` tests membership with
Python `in`, i.e. `==` equality, under which `True == 1`; so
`enum([1, 2, 3]).parse(True)` succeeds even though no member equals the
input by both value and type. -/
theorem C4_counterexample :
    (enumS [.int 1, .int 2, .int 3]).parse (.bool true) = .ok (.bool true)
    ∧ [PyVal.int 1, PyVal.int 2, PyVal.int 3].all
        (fun m => !(strictEq (.bool true) m)) = true := by
  constructor
  · simp [Schema.parse, enumS, evaluate, parseCore, PyVal.isNone, runSteps,
      pyEq, PyVal.asNum, PyFloat.numEq]
  · rfl

/-- C4 (amended): an enum schema accepts a raw value (that is not the
UNDEFINED sentinel) iff it compares equal, under Python `==` equality, to
some member of the fixed list — value equality only, so a value of a
different dynamic kind that compares equal to a member (such as a boolean
against a numeric member) is accepted; on acceptance the input is returned,
otherwise the parse fails with the enum issue. -/
theorem C4_enum_membership (values : List PyVal) (raw : PyVal) (path : Path)
    (h : raw.isUndef = false) :
    (values.any (fun m => pyEq raw m) = true →
      evaluate (enumS values) raw path = .ok raw)
    ∧ (values.any (fun m => pyEq raw m) = false →
      evaluate (enumS values) raw path =
        .error [custom_issue (enumMessage values raw) path raw enumFailCode]) := by
  constructor <;> intro hm <;>
    · simp only [enumS]
      rw [evaluate_flags_off _ _ _ _ h]
      simp [parseCore, hm, runSteps]

/-- Witness for the amended C4 at a concrete input: `True` is accepted by
`enum([1])` because `True == 1` in Python. -/
theorem C4_enum_membership_witness :
    (PyVal.bool true).isUndef = false
    ∧ [PyVal.int 1].any (fun m => pyEq (.bool true) m) = true
    ∧ evaluate (enumS [.int 1]) (.bool true) [] = .ok (.bool true) :=
  ⟨rfl, rfl, (C4_enum_membership [.int 1] (.bool true) [] rfl).1 rfl⟩

/-- C5: a rejected enum input produces exactly one issue whose code is
`invalid_enum_value` and whose message lists the allowed values in their
original declaration order (the message shape of
`EnumSchema._parse_value`). -/
theorem C5_enum_failure_issue (values : List PyVal) (raw : PyVal)
    (path : Path) (h : raw.isUndef = false)
    (hm : values.any (fun m => pyEq raw m) = false) :
    evaluate (enumS values) raw path =
      .error [{ path := path, code := "invalid_enum_value",
                message := "Expected one of ["
                  ++ String.intercalate ", " (values.map pyRepr)
                  ++ "], received " ++ pyRepr raw,
                received := raw }] := by
  simp only [enumS]
  rw [evaluate_flags_off _ _ _ _ h]
  simp [parseCore, hm, runSteps, custom_issue, enumMessage, enumFailCode]

/-- Witness for C5 at the tested input: `enum(["red","green","blue"])`
rejecting `"yellow"`. -/
theorem C5_enum_failure_issue_witness :
    (PyVal.str "yellow").isUndef = false
    ∧ [PyVal.str "red", PyVal.str "green", PyVal.str "blue"].any
        (fun m => pyEq (.str "yellow") m) = false
    ∧ evaluate (enumS [.str "red", .str "green", .str "blue"])
        (.str "yellow") [] =
      .error [{ path := [], code := "invalid_enum_value",
                message := "Expected one of ["
                  ++ String.intercalate ", "
                      ([PyVal.str "red", PyVal.str "green",
                        PyVal.str "blue"].map pyRepr)
                  ++ "], received " ++ pyRepr (.str "yellow"),
                received := .str "yellow" }] :=
  ⟨rfl, rfl,
    C5_enum_failure_issue [.str "red", .str "green", .str "blue"]
      (.str "yellow") [] rfl rfl⟩

/-- C10: on success an enum schema returns the raw input value itself,
unchanged — not the equal member stored in the allowed-values list (the
source returns `value`, never the matching member). -/
theorem C10_enum_returns_input (values : List PyVal) (raw : PyVal)
    (path : Path) (h : raw.isUndef = false)
    (hm : values.any (fun m => pyEq raw m) = true) :
    evaluate (enumS values) raw path = .ok raw := by
  simp only [enumS]
  rw [evaluate_flags_off _ _ _ _ h]
  simp [parseCore, hm, runSteps]

/-- Witness for C10 where the returned value visibly differs from the
stored member: `enum([0])` accepts `False` (since `False == 0`) and returns
`False` itself, not the member `0`. -/
theorem C10_enum_returns_input_witness :
    (PyVal.bool false).isUndef = false
    ∧ [PyVal.int 0].any (fun m => pyEq (.bool false) m) = true
    ∧ evaluate (enumS [.int 0]) (.bool false) [] = .ok (.bool false) :=
  ⟨rfl, rfl, C10_enum_returns_input [.int 0] (.bool false) [] rfl rfl⟩

/-- Alternatives that all fail contribute no match. -/
theorem evalAlts_all_fail (l : List Schema) (raw : PyVal) (path : Path) :
    (∀ t ∈ l, isOk (evaluate t raw path) = false) →
    evalAlts (Alts.ofList l) raw path = Option.none := by
  induction l with
  | nil => intro _; simp [Alts.ofList, evalAlts]
  | cons s rest ih =>
    intro h
    simp only [Alts.ofList, evalAlts]
    cases hs : evaluate s raw path with
    | ok v =>
      have hf := h s (by simp)
      rw [hs] at hf
      simp [isOk] at hf
    | error e => exact ih fun t ht => h t (by simp [ht])

/-- The first succeeding alternative, after any list of failing ones,
determines the match. -/
theorem evalAlts_first (pre : List Schema) (s : Schema) (post : List Schema)
    (raw : PyVal) (path : Path) (v : PyVal)
    (hpre : ∀ t ∈ pre, isOk (evaluate t raw path) = false)
    (hs : evaluate s raw path = .ok v) :
    evalAlts (Alts.ofList (pre ++ s :: post)) raw path = some v := by
  induction pre with
  | nil => simp [Alts.ofList, evalAlts, hs]
  | cons t rest ih =>
    simp only [List.cons_append, Alts.ofList, evalAlts]
    cases ht : evaluate t raw path with
    | ok w =>
      have hf := hpre t (by simp)
      rw [ht] at hf
      simp [isOk] at hf
    | error e => exact ih fun u hu => hpre u (by simp [hu])

/-- C1: a union tries its alternatives in declared order against the same
raw input and path; the first alternative that succeeds determines the
result, so `(string() | number()).parse(42)` is the number `42` and
`.parse("42")` is the string `"42"`; if every alternative fails, the parse
fails with one issue at the union's path with code `invalid_union`. -/
theorem C1_union_order :
    (∀ (pre : List Schema) (s : Schema) (post : List Schema) (raw : PyVal)
       (path : Path) (v : PyVal),
       raw.isUndef = false →
       (∀ t ∈ pre, isOk (evaluate t raw path) = false) →
       evaluate s raw path = .ok v →
       evaluate (unionS (pre ++ s :: post)) raw path = .ok v)
    ∧ (∀ (l : List Schema) (raw : PyVal) (path : Path),
       raw.isUndef = false →
       (∀ t ∈ l, isOk (evaluate t raw path) = false) →
       evaluate (unionS l) raw path =
         .error [custom_issue "Value did not match any union option" path raw
           "invalid_union"])
    ∧ (stringS.orSchema numberS).parse (.int 42) = .ok (.int 42)
    ∧ (stringS.orSchema numberS).parse (.str "42") = .ok (.str "42") := by
  refine ⟨?_, ?_, ?_, ?_⟩
  · intro pre s post raw path v h hpre hs
    simp only [unionS]
    rw [evaluate_flags_off _ _ _ _ h]
    simp [parseCore, evalAlts_first pre s post raw path v hpre hs, runSteps]
  · intro l raw path h hall
    simp only [unionS]
    rw [evaluate_flags_off _ _ _ _ h]
    simp [parseCore, evalAlts_all_fail l raw path hall]
  · simp [Schema.parse, Schema.orSchema, unionS, Alts.ofList, evaluate,
      parseCore, evalAlts, stringS, numberS, PyVal.isNone, runSteps]
  · simp [Schema.parse, Schema.orSchema, unionS, Alts.ofList, evaluate,
      parseCore, evalAlts, stringS, numberS, PyVal.isNone, runSteps]

/-- Witness for C1: the number alternative, declared second, wins on `42`
after the string alternative fails, and a union of string and number
rejects `True` with the `invalid_union` issue. -/
theorem C1_union_order_witness :
    (PyVal.int 42).isUndef = false
    ∧ (∀ t ∈ [stringS], isOk (evaluate t (.int 42) []) = false)
    ∧ evaluate numberS (.int 42) [] = .ok (.int 42)
    ∧ evaluate (unionS ([stringS] ++ numberS :: [])) (.int 42) [] =
        .ok (.int 42)
    ∧ (∀ t ∈ [stringS, numberS], isOk (evaluate t (.bool true) []) = false)
    ∧ evaluate (unionS [stringS, numberS]) (.bool true) [] =
        .error [custom_issue "Value did not match any union option" []
          (.bool true) "invalid_union"] := by
  have h1 : ∀ t ∈ [stringS], isOk (evaluate t (.int 42) []) = false := by
    simp [stringS, evaluate, parseCore, PyVal.isNone, isOk]
  have h2 : evaluate numberS (.int 42) [] = .ok (.int 42) := by
    simp [numberS, evaluate, parseCore, PyVal.isNone, runSteps]
  have h3 : ∀ t ∈ [stringS, numberS], isOk (evaluate t (.bool true) []) = false := by
    intro t ht
    rcases List.mem_pair.mp ht with h | h <;> subst h <;>
      simp [stringS, numberS, evaluate, parseCore, PyVal.isNone, isOk]
  exact ⟨rfl, h1, h2,
    C1_union_order.1 [stringS] numberS [] (.int 42) [] (.int 42) rfl h1 h2,
    h3,
    C1_union_order.2.1 [stringS, numberS] (.bool true) [] rfl h3⟩

/-- The issue component of the object field traversal is exactly the
spec-worded per-field aggregate. -/
theorem evalFields_snd (fields : List (String × Schema))
    (entries : List (String × PyVal)) (path : Path) :
    (evalFields (Fields.ofList fields) entries path).2 =
      fieldIssues fields entries path := by
  induction fields with
  | nil => simp [Fields.ofList, evalFields, fieldIssues]
  | cons kv rest ih =>
    obtain ⟨k, s⟩ := kv
    simp only [Fields.ofList, evalFields, fieldIssues]
    cases hr : evaluate s ((dictFind entries k).getD PyVal.undef)
        (path ++ [PathSeg.key k]) with
    | ok v => simp [hr, errList, ih]
    | error e => simp [hr, errList, ih]

/-- The issue component of the array element traversal is exactly the
spec-worded per-element aggregate. -/
theorem evalElems_snd (elem : Schema) (xs : List PyVal) (path : Path)
    (i : Nat) :
    (evalElems elem xs path i).2 = elemIssues elem xs path i := by
  induction xs generalizing i with
  | nil => simp [evalElems, elemIssues]
  | cons x rest ih =>
    simp only [evalElems, elemIssues]
    cases hr : evaluate elem x (path ++ [PathSeg.idx i]) with
    | ok v => simp [hr, errList, ih]
    | error e => simp [hr, errList, ih]

/-- The element aggregate splits over list concatenation, with the index
advanced by the length of the left part. -/
theorem elemIssues_append (elem : Schema) (a b : List PyVal) (path : Path)
    (i : Nat) :
    elemIssues elem (a ++ b) path i =
      elemIssues elem a path i ++ elemIssues elem b path (i + a.length) := by
  induction a generalizing i with
  | nil => simp [elemIssues]
  | cons x rest ih =>
    simp only [List.cons_append, elemIssues, List.length_cons, List.append_eq]
    rw [ih]
    have hidx : i + 1 + rest.length = i + (rest.length + 1) := by omega
    rw [hidx, List.append_assoc]

/-- C2: when an object schema parses a map, every declared field is
evaluated via its child schema at `path + [field]` regardless of failures
in earlier fields, and every element of an array input is evaluated at
`path + [index]`; the issues of all failing siblings are merged in order
and exactly one aggregate error is raised, and only when at least one issue
was collected. Any failing field's (or element's) issues all appear in the
raised aggregate. -/
theorem C2_sibling_aggregation :
    (∀ (fields : List (String × Schema)) (entries : List (String × PyVal))
       (path : Path),
       (fieldIssues fields entries path ≠ [] →
         evaluate (objectS fields) (.dict entries) path =
           .error (fieldIssues fields entries path))
       ∧ (fieldIssues fields entries path = [] →
         isOk (evaluate (objectS fields) (.dict entries) path) = true))
    ∧ (∀ (fields : List (String × Schema)) (entries : List (String × PyVal))
       (path : Path) (k : String) (s : Schema), (k, s) ∈ fields →
       ∀ i ∈ errList (evaluate s ((dictFind entries k).getD PyVal.undef)
         (path ++ [PathSeg.key k])),
         i ∈ fieldIssues fields entries path)
    ∧ (∀ (elem : Schema) (xs : List PyVal) (path : Path),
       (elemIssues elem xs path 0 ≠ [] →
         evaluate (arrayS elem) (.list xs) path =
           .error (elemIssues elem xs path 0))
       ∧ (elemIssues elem xs path 0 = [] →
         isOk (evaluate (arrayS elem) (.list xs) path) = true))
    ∧ (∀ (elem : Schema) (pre : List PyVal) (x : PyVal) (post : List PyVal)
       (path : Path),
       ∀ i ∈ errList (evaluate elem x (path ++ [PathSeg.idx pre.length])),
         i ∈ elemIssues elem (pre ++ x :: post) path 0) := by
  refine ⟨?_, ?_, ?_, ?_⟩
  · intro fields entries path
    have hsnd := evalFields_snd fields entries path
    rcases hp : evalFields (Fields.ofList fields) entries path with ⟨out, issues⟩
    rw [hp] at hsnd
    simp only at hsnd
    constructor
    · intro hne
      rw [← hsnd] at hne ⊢
      cases issues with
      | nil => exact absurd rfl hne
      | cons a as_ =>
        simp only [objectS]
        rw [evaluate_flags_off (.objC (Fields.ofList fields)) []
          (.dict entries) path rfl]
        simp [parseCore, hp]
    · intro hz
      simp only [objectS]
      rw [evaluate_flags_off (.objC (Fields.ofList fields)) []
        (.dict entries) path rfl]
      rw [← hsnd] at hz
      subst hz
      simp [parseCore, hp, isOk, runSteps]
  · intro fields entries path k s hmem i hi
    induction fields with
    | nil => simp at hmem
    | cons kv rest ih =>
      rcases List.mem_cons.mp hmem with h | h
      · subst h
        simp only [fieldIssues]
        exact List.mem_append_left _ hi
      · rcases kv with ⟨k0, s0⟩
        simp only [fieldIssues]
        exact List.mem_append_right _ (ih h)
  · intro elem xs path
    have hsnd := evalElems_snd elem xs path 0
    rcases hp : evalElems elem xs path 0 with ⟨out, issues⟩
    rw [hp] at hsnd
    simp only at hsnd
    constructor
    · intro hne
      rw [← hsnd] at hne ⊢
      cases issues with
      | nil => exact absurd rfl hne
      | cons a as_ =>
        simp only [arrayS]
        rw [evaluate_flags_off (.arrC elem) [] (.list xs) path rfl]
        simp [parseCore, hp]
    · intro hz
      simp only [arrayS]
      rw [evaluate_flags_off (.arrC elem) [] (.list xs) path rfl]
      rw [← hsnd] at hz
      subst hz
      simp [parseCore, hp, isOk, runSteps]
  · intro elem pre x post path i hi
    rw [elemIssues_append]
    refine List.mem_append_right _ ?_
    simp only [Nat.zero_add, elemIssues]
    exact List.mem_append_left _ hi

/-- Witness for C2: an object with two bad fields raises a single aggregate
holding both field issues, and an array with two bad elements raises both
element issues. -/
theorem C2_sibling_aggregation_witness :
    fieldIssues [("email", stringS), ("age", numberS)]
        [("email", PyVal.int 5), ("age", PyVal.str "x")] [] ≠ []
    ∧ evaluate (objectS [("email", stringS), ("age", numberS)])
        (.dict [("email", .int 5), ("age", .str "x")]) [] =
      .error (fieldIssues [("email", stringS), ("age", numberS)]
        [("email", PyVal.int 5), ("age", PyVal.str "x")] [])
    ∧ elemIssues stringS [PyVal.int 1, PyVal.str "a", PyVal.int 2] [] 0 ≠ []
    ∧ evaluate (arrayS stringS) (.list [.int 1, .str "a", .int 2]) [] =
      .error (elemIssues stringS [PyVal.int 1, PyVal.str "a", PyVal.int 2] [] 0) := by
  have h1 : fieldIssues [("email", stringS), ("age", numberS)]
      [("email", PyVal.int 5), ("age", PyVal.str "x")] [] ≠ [] := by
    simp [fieldIssues, dictFind, stringS, numberS, evaluate, parseCore,
      PyVal.isNone, errList]
  have h2 : elemIssues stringS [PyVal.int 1, PyVal.str "a", PyVal.int 2] [] 0 ≠ [] := by
    simp [elemIssues, stringS, evaluate, parseCore, PyVal.isNone, errList,
      runSteps]
  exact ⟨h1,
    (C2_sibling_aggregation.1 [("email", stringS), ("age", numberS)]
      [("email", PyVal.int 5), ("age", PyVal.str "x")] []).1 h1,
    h2,
    (C2_sibling_aggregation.2.2.1 stringS [PyVal.int 1, PyVal.str "a", PyVal.int 2] []).1 h2⟩

/-- Witness for C3 at a concrete node: a string node with default `"x"`
resolves UNDEFINED to its step pipeline run on `"x"`. -/
theorem C3_undefined_resolution_witness :
    some (PyVal.str "x") = some (PyVal.str "x")
    ∧ evaluate (.node .strC [] false false (some (.str "x"))) PyVal.undef [] =
        runSteps [] (.str "x") [] :=
  ⟨rfl,
    C3_undefined_resolution.1 .strC [] false false (some (.str "x")) []
      (.str "x") rfl⟩

/-- Witness for C6 at concrete predicates failing both refine steps: only
the first message is reported. -/
theorem C6_refine_fail_fast_witness :
    (fun (_ : PyVal) => false) (PyVal.str "a") = false
    ∧ evaluate ((stringS.refine (fun _ => false) "m1").refine
        (fun _ => false) "m2") (.str "a") [] =
      .error [custom_issue "m1" [] (.str "a") "custom"] :=
  ⟨rfl,
    C6_refine_fail_fast.2 (fun _ => false) (fun _ => false) "m1" "m2" "a" []
      rfl rfl⟩

end Zodic
